import Mathlib

/-!
Verification of the `docling_haystack.converter` module (a Haystack
component wrapping the Docling document-conversion engine).

Shallow embedding conventions:
* External collaborator behaviour (the Docling `DocumentConverter`, the
  chunker, the markdown exporter, a possibly custom meta extractor, and the
  operating system's temp-file / unlink calls) is abstracted into an `Env`
  record of functions.  Fallible Python calls are modelled with
  `Except String`.
* The conversion engine reads the file it is given; for a temporary file
  materialised from a `ByteStream` its result is therefore modelled as a
  function of the file's contents and suffix (the random component of the
  temp-file name carries no information for the engine).
* `tempfile.NamedTemporaryFile` is modelled with a deterministic fresh-name
  counter: the n-th temp file of a filesystem state is named
  `"/tmp/tmp" ++ toString n ++ suffix`.  Creation may fail (no file
  appears), and the subsequent `temp_file.write` may fail (the file was
  already created but `_handle_bytestream` raises before returning the
  path) — both are caught by the per-item handler in `run`.
-/

namespace DoclingHaystack

/-- A JSON-like value, used for opaque engine-defined metadata payloads
(`chunk.export_json_dict()`, `dl_doc.origin.model_dump(exclude_none=True)`). -/
inductive JsonVal where
  | str : String → JsonVal
  | obj : List (String × JsonVal) → JsonVal
deriving Repr

/-- `class ExportType(str, Enum)` with members `MARKDOWN` and `DOC_CHUNKS`.
Since Python does not enforce the annotation, a misconfigured component can
hold any other value; `other s` models such a value (formatted as `s`). -/
inductive ExportType where
  | markdown
  | doc_chunks
  | other : String → ExportType
deriving Repr, DecidableEq

/-- `haystack.dataclasses.byte_stream.ByteStream`: raw bytes plus a
string-valued metadata mapping (`file_extension`, `filename`, ...). -/
structure ByteStream where
  data : List Nat
  meta : List (String × String)
deriving Repr, DecidableEq

/-- `dict.get`: first binding of a key in a mapping, if any. -/
def dictGet (m : List (String × String)) (k : String) : Option String :=
  (m.find? (fun kv => kv.1 == k)).map (fun kv => kv.2)

/-- A chunk produced by the external chunker (`BaseChunk`); its native
structured export `export_json_dict()` is carried opaquely. -/
structure BaseChunk where
  export_json_dict : JsonVal

/-- The structured output of the conversion engine (`DoclingDocument`).
Only the `origin` attribute is inspected by this adapter; `origin` is
`none` when the document records no origin, otherwise it carries the
result of `origin.model_dump(exclude_none=True)` opaquely. -/
structure DoclingDocument where
  origin : Option JsonVal

/-- A Haystack `Document`: text content plus a metadata mapping. -/
structure Document where
  content : String
  meta : List (String × JsonVal)

/-- An input item accepted by `run`: a local path or URL string
(`Path`/`str` are both stringified), or an in-memory `ByteStream`. -/
inductive Source where
  | path : String → Source
  | stream : ByteStream → Source
deriving Repr, DecidableEq

/-- What the conversion engine is invoked on: either the caller's path/URL
string, or a materialised temporary file, identified by its contents and
suffix (see module comment). -/
inductive ConvInput where
  | path : String → ConvInput
  | tempFile : List Nat → Option String → ConvInput

/-- Log emissions of `run`: a per-item warning with the offending source
and the error text, or a low-severity debug entry naming a temp file whose
deletion failed. -/
inductive LogEntry where
  | warning : Source → String → LogEntry
  | debug : String → LogEntry
deriving Repr, DecidableEq

/-- Filesystem model: the fresh-name counter for temporary files and the
set of existing files with their contents. -/
structure FSState where
  counter : Nat
  files : List (String × List Nat)

/-- Behaviour of the external collaborators and of the operating system. -/
structure Env where
  /-- `self._converter.convert(source=filepath, **self._convert_kwargs).document` -/
  convert : ConvInput → List (String × String) → Except String DoclingDocument
  /-- `self._chunker.chunk(dl_doc=dl_doc)`, consumed fully per item -/
  chunk : DoclingDocument → Except String (List BaseChunk)
  /-- `self._chunker.serialize(chunk=chunk)` -/
  serialize : BaseChunk → Except String String
  /-- `dl_doc.export_to_markdown(**self._md_export_kwargs)` -/
  export_to_markdown : DoclingDocument → List (String × String) → Except String String
  /-- `self._meta_extractor.extract_chunk_meta(chunk=chunk)` -/
  extract_chunk_meta : BaseChunk → Except String (List (String × JsonVal))
  /-- `self._meta_extractor.extract_dl_doc_meta(dl_doc=dl_doc)` -/
  extract_dl_doc_meta : DoclingDocument → Except String (List (String × JsonVal))
  /-- whether `tempfile.NamedTemporaryFile(...)` itself raises for this stream -/
  temp_create_fails : ByteStream → Bool
  /-- whether `temp_file.write(bytestream.data)` raises after creation -/
  temp_write_fails : ByteStream → Bool
  /-- whether `Path(name).unlink()` raises for this file name -/
  unlink_fails : String → Bool

/-- The configuration fields of a `DoclingConverter` that `run` reads. -/
structure Config where
  export_type : ExportType
  convert_kwargs : List (String × String)
  md_export_kwargs : List (String × String)

/-- The suffix computed in `_handle_bytestream`:
`f".{meta.get('file_extension', '')}" if meta.get("file_extension") else None`
(a missing key or an empty string — both falsy — yield no suffix). -/
def suffixFor (bytestream : ByteStream) : Option String :=
  match dictGet bytestream.meta "file_extension" with
  | some e => if e = "" then none else some ("." ++ e)
  | none => none

/-- The deterministic name `tempfile.NamedTemporaryFile(suffix=suffix,
delete=False)` assigns at fresh-name counter `n`. -/
def tempName (n : Nat) (suffix : Option String) : String :=
  "/tmp/tmp" ++ toString n ++ suffix.getD ""

/-- `DoclingConverter._handle_bytestream`: write the stream's bytes to a
newly created temporary file and return `(path, True)`.  On a creation
failure no file appears; on a write failure the file was already created
but the call raises, so no path is returned. -/
def handle_bytestream (env : Env) (bytestream : ByteStream) (fs : FSState) :
    Except String (String × Bool) × FSState :=
  if env.temp_create_fails bytestream then
    (Except.error "NamedTemporaryFile failed", fs)
  else
    let name := tempName fs.counter (suffixFor bytestream)
    if env.temp_write_fails bytestream then
      (Except.error "temp file write failed",
        { counter := fs.counter + 1, files := (name, []) :: fs.files })
    else
      (Except.ok (name, true),
        { counter := fs.counter + 1, files := (name, bytestream.data) :: fs.files })

/-- One element of the chunk-mode list comprehension:
`Document(content=self._chunker.serialize(chunk=chunk),
meta=self._meta_extractor.extract_chunk_meta(chunk=chunk))`. -/
def chunkRecord (env : Env) (chunk : BaseChunk) : Except String Document := do
  let content ← env.serialize chunk
  let meta ← env.extract_chunk_meta chunk
  pure { content := content, meta := meta }

/-- The chunk-mode list comprehension `[Document(...) for chunk in
chunk_iter]`: chunks are consumed in order and the whole comprehension must
succeed before any record is kept (`documents.extend` runs only after full
consumption, so a failure midway discards the records already built). -/
def chunkRecords (env : Env) : List BaseChunk → Except String (List Document)
  | [] => Except.ok []
  | chunk :: rest => do
      let d ← chunkRecord env chunk
      let ds ← chunkRecords env rest
      pure (d :: ds)

/-- The export branch of `run` (lines 145-173 of `converter.py`), after the
input has been normalised: convert, then branch on the export type.  An
unexpected export type raises `RuntimeError` — note that this `raise` sits
inside the per-item `try`. -/
def convertAndExport (cfg : Config) (env : Env) (inp : ConvInput) :
    Except String (List Document) := do
  let dl_doc ← env.convert inp cfg.convert_kwargs
  match cfg.export_type with
  | ExportType.doc_chunks => do
      let chunks ← env.chunk dl_doc
      chunkRecords env chunks
  | ExportType.markdown => do
      let content ← env.export_to_markdown dl_doc cfg.md_export_kwargs
      let meta ← env.extract_dl_doc_meta dl_doc
      pure [{ content := content, meta := meta }]
  | ExportType.other s =>
      Except.error ("Unexpected export type: " ++ s)

/-- One iteration of the loop body of `run` (the inner `try`): normalise
the source, convert and export.  Returns the item's outcome, the new
filesystem state, and the temp-file paths recorded in `temp_files` by this
item (recorded as soon as `_handle_bytestream` returns, before conversion,
so they survive a later per-item failure). -/
def runItem (cfg : Config) (env : Env) (source : Source) (fs : FSState) :
    Except String (List Document) × FSState × List String :=
  match source with
  | Source.path p =>
      (convertAndExport cfg env (ConvInput.path p), fs, [])
  | Source.stream bytestream =>
      match handle_bytestream env bytestream fs with
      | (Except.error e, fs') => (Except.error e, fs', [])
      | (Except.ok (name, _), fs') =>
          (convertAndExport cfg env
            (ConvInput.tempFile bytestream.data (suffixFor bytestream)), fs', [name])

/-- The outcome of `run`: the `{"documents": ...}` result, the recorded
`temp_files` list, the final filesystem, and the emitted log entries. -/
structure RunResult where
  documents : List Document
  temp_files : List String
  fs : FSState
  logs : List LogEntry

/-- The `for source in paths` loop of `run` with its per-item
`except Exception` handler: a failing item contributes no records, emits a
warning naming the source and the error, and processing continues. -/
def runLoop (cfg : Config) (env : Env) :
    List Source → FSState → List Document → List String → List LogEntry →
      List Document × List String × FSState × List LogEntry
  | [], fs, docs, temps, logs => (docs, temps, fs, logs)
  | source :: rest, fs, docs, temps, logs =>
      match runItem cfg env source fs with
      | (Except.ok hs_docs, fs', newTemps) =>
          runLoop cfg env rest fs' (docs ++ hs_docs) (temps ++ newTemps) logs
      | (Except.error e, fs', newTemps) =>
          runLoop cfg env rest fs' docs (temps ++ newTemps)
            (logs ++ [LogEntry.warning source e])

/-- The `finally` block of `run`: unlink every recorded temp file; a
deletion failure is logged at debug severity and suppressed. -/
def cleanup (env : Env) (temps : List String) (fs : FSState) (logs : List LogEntry) :
    FSState × List LogEntry :=
  temps.foldl
    (fun acc name =>
      if env.unlink_fails name then
        (acc.1, acc.2 ++ [LogEntry.debug name])
      else
        ({ acc.1 with files := acc.1.files.filter (fun f => f.1 ≠ name) }, acc.2))
    (fs, logs)

/-- `DoclingConverter.run`: process every source in order, then clean up.
Every exception raised inside the loop body is caught by the per-item
handler, so `run` always reaches its normal `return {"documents": ...}`. -/
def run (cfg : Config) (env : Env) (paths : List Source) (fs : FSState) : RunResult :=
  let (docs, temps, fs', logs) := runLoop cfg env paths fs [] [] []
  let (fs'', logs') := cleanup env temps fs' logs
  { documents := docs, temp_files := temps, fs := fs'', logs := logs' }

/-! ### Default metadata extractor (`class MetaExtractor`) -/

namespace MetaExtractor

/-- `MetaExtractor.extract_chunk_meta`:
`return {"dl_meta": chunk.export_json_dict()}`. -/
def extract_chunk_meta (chunk : BaseChunk) : List (String × JsonVal) :=
  [("dl_meta", chunk.export_json_dict)]

/-- `MetaExtractor.extract_dl_doc_meta`:
`{"dl_meta": {"origin": dl_doc.origin.model_dump(exclude_none=True)}} if
dl_doc.origin else {}` (a pydantic model instance is truthy, so the
condition is exactly "the document records an origin"). -/
def extract_dl_doc_meta (dl_doc : DoclingDocument) : List (String × JsonVal) :=
  match dl_doc.origin with
  | some origin_dump => [("dl_meta", JsonVal.obj [("origin", origin_dump)])]
  | none => []

end MetaExtractor

/-- First binding of a key in a metadata mapping, if any. -/
def metaLookup (m : List (String × JsonVal)) (k : String) : Option JsonVal :=
  (m.find? (fun kv => kv.1 == k)).map (fun kv => kv.2)

/-! ### Component construction and dict round trip -/

/-- A collaborator slot of the component: the system default instance or a
caller-supplied custom instance (identified abstractly). -/
inductive CollabSlot where
  | default
  | custom : Nat → CollabSlot
deriving Repr, DecidableEq

/-- The attribute state of a `DoclingConverter` instance.  `chunker` is
`none` when the attribute was never set (markdown or misconfigured mode:
`self._chunker` is only assigned under `if self._export_type ==
ExportType.DOC_CHUNKS`). -/
structure DoclingConverter where
  converter : CollabSlot
  convert_kwargs : List (String × String)
  export_type : ExportType
  md_export_kwargs : List (String × String)
  chunker : Option CollabSlot
  meta_extractor : CollabSlot
deriving Repr, DecidableEq

/-- `DoclingConverter.__init__`: optional arguments default to the system
collaborators (`converter or DocumentConverter()`, `chunker or
HybridChunker(...)`, `meta_extractor or MetaExtractor()`), `convert_kwargs`
defaults to `{}`, `md_export_kwargs` to `{"image_placeholder": ""}`, and
`export_type` to `ExportType.DOC_CHUNKS`. -/
def DoclingConverter.init
    (converter : Option Nat := none)
    (convert_kwargs : Option (List (String × String)) := none)
    (export_type : ExportType := ExportType.doc_chunks)
    (md_export_kwargs : Option (List (String × String)) := none)
    (chunker : Option Nat := none)
    (meta_extractor : Option Nat := none) : DoclingConverter :=
  { converter :=
      match converter with
      | some i => CollabSlot.custom i
      | none => CollabSlot.default
    convert_kwargs := convert_kwargs.getD []
    export_type := export_type
    md_export_kwargs := md_export_kwargs.getD [("image_placeholder", "")]
    chunker :=
      if export_type = ExportType.doc_chunks then
        some (match chunker with
          | some i => CollabSlot.custom i
          | none => CollabSlot.default)
      else none
    meta_extractor :=
      match meta_extractor with
      | some i => CollabSlot.custom i
      | none => CollabSlot.default }

/-- The `init_parameters` mapping produced by `default_to_dict(self,
convert_kwargs=self._convert_kwargs, md_export_kwargs=self._md_export_kwargs)`:
only these two parameters are serialized. -/
structure SerializedConverter where
  convert_kwargs : List (String × String)
  md_export_kwargs : List (String × String)
deriving Repr, DecidableEq

/-- `DoclingConverter.to_dict`. -/
def DoclingConverter.to_dict (c : DoclingConverter) : SerializedConverter :=
  { convert_kwargs := c.convert_kwargs, md_export_kwargs := c.md_export_kwargs }

/-- `DoclingConverter.from_dict` via `default_from_dict`: calls the
constructor with exactly the serialized `init_parameters`; every other
argument takes its constructor default. -/
def DoclingConverter.from_dict (d : SerializedConverter) : DoclingConverter :=
  DoclingConverter.init none (some d.convert_kwargs) ExportType.doc_chunks
    (some d.md_export_kwargs) none none

/-! ### Per-item descriptions used by the theorems -/

/-- The path handed to the conversion engine for a source, as a `ConvInput`
(§ module comment: a temp file is identified by contents and suffix). -/
def normInput : Source → ConvInput
  | Source.path p => ConvInput.path p
  | Source.stream bytestream =>
      ConvInput.tempFile bytestream.data (suffixFor bytestream)

/-- Normalisation of this source raises no error. -/
def normSucceeds (env : Env) : Source → Prop
  | Source.path _ => True
  | Source.stream bytestream =>
      env.temp_create_fails bytestream = false ∧
        env.temp_write_fails bytestream = false

/-- The per-item outcome of the loop body, which is independent of the
filesystem state (the engine's behaviour on a temp file depends only on
its contents and suffix). -/
def itemDocs (cfg : Config) (env : Env) : Source → Except String (List Document)
  | Source.path p => convertAndExport cfg env (ConvInput.path p)
  | Source.stream bytestream =>
      if env.temp_create_fails bytestream then
        Except.error "NamedTemporaryFile failed"
      else if env.temp_write_fails bytestream then
        Except.error "temp file write failed"
      else
        convertAndExport cfg env
          (ConvInput.tempFile bytestream.data (suffixFor bytestream))

/-- The records an item contributes to `documents`: its output list on
success, nothing on a caught failure. -/
def recordsOf (r : Except String (List Document)) : List Document :=
  match r with
  | Except.ok l => l
  | Except.error _ => []

/-- The concatenation, in input order, of each item's records. -/
def allRecords (cfg : Config) (env : Env) (srcs : List Source) : List Document :=
  (srcs.map (fun s => recordsOf (itemDocs cfg env s))).flatten

/-- The warnings emitted by the per-item handler, in input order. -/
def itemWarnings (cfg : Config) (env : Env) (srcs : List Source) : List LogEntry :=
  srcs.filterMap (fun s =>
    match itemDocs cfg env s with
    | Except.error e => some (LogEntry.warning s e)
    | Except.ok _ => none)

/-! ### Concrete instances used by witnesses and counterexamples -/

/-- An environment in which every collaborator call succeeds. -/
def envOk : Env :=
  { convert := fun _ _ => Except.ok { origin := none }
    chunk := fun _ => Except.ok [{ export_json_dict := JsonVal.str "chunk0" }]
    serialize := fun _ => Except.ok "serialized chunk"
    export_to_markdown := fun _ _ => Except.ok "# markdown"
    extract_chunk_meta := fun chunk => Except.ok [("dl_meta", chunk.export_json_dict)]
    extract_dl_doc_meta := fun _ => Except.ok []
    temp_create_fails := fun _ => false
    temp_write_fails := fun _ => false
    unlink_fails := fun _ => false }

/-- Like `envOk` but conversion raises exactly on the path `"bad.pdf"`. -/
def envOneBad : Env :=
  { envOk with
    convert := fun inp _ =>
      match inp with
      | ConvInput.path p =>
          if p = "bad.pdf" then Except.error "conversion failed"
          else Except.ok { origin := none }
      | ConvInput.tempFile _ _ => Except.ok { origin := none } }

/-- Like `envOk` but `temp_file.write` raises for every byte stream (after
`NamedTemporaryFile` has already created the file). -/
def envLeak : Env :=
  { envOk with temp_write_fails := fun _ => true }

/-- A markdown-mode configuration. -/
def cfgMd : Config :=
  { export_type := ExportType.markdown, convert_kwargs := [], md_export_kwargs := [] }

/-- A chunk-mode configuration. -/
def cfgChunks : Config :=
  { export_type := ExportType.doc_chunks, convert_kwargs := [], md_export_kwargs := [] }

/-- A misconfigured component whose export type is neither member of the
enum (`self._export_type` holds the foreign value `"bogus"`). -/
def cfgBogus : Config :=
  { export_type := ExportType.other "bogus", convert_kwargs := [], md_export_kwargs := [] }

/-- A byte stream with no metadata. -/
def bsPlain : ByteStream := { data := [7, 8], meta := [] }

/-- A byte stream whose metadata hints the `md` extension. -/
def bsMd : ByteStream := { data := [35, 32], meta := [("file_extension", "md")] }

/-- A byte stream whose metadata maps `file_extension` to the empty string. -/
def bsEmptyExt : ByteStream := { data := [1], meta := [("file_extension", "")] }

/-! ### Helper lemmas -/

lemma except_bind_ok {ε α β : Type} (a : α) (f : α → Except ε β) :
    (Except.ok a >>= f) = f a := rfl

lemma except_bind_error {ε α β : Type} (e : ε) (f : α → Except ε β) :
    ((Except.error e : Except ε α) >>= f) = Except.error e := rfl

lemma except_map_ok {ε α β : Type} (g : α → β) (a : α) :
    (g <$> (Except.ok a : Except ε α)) = Except.ok (g a) := rfl

lemma except_map_error {ε α β : Type} (g : α → β) (e : ε) :
    (g <$> (Except.error e : Except ε α)) = Except.error e := rfl

lemma runItem_fst (cfg : Config) (env : Env) (source : Source) (fs : FSState) :
    (runItem cfg env source fs).1 = itemDocs cfg env source := by
  cases source with
  | path p => rfl
  | stream bytestream =>
      by_cases hc : env.temp_create_fails bytestream
      · simp [runItem, itemDocs, handle_bytestream, hc]
      · by_cases hw : env.temp_write_fails bytestream
        · simp [runItem, itemDocs, handle_bytestream, hc, hw]
        · simp [runItem, itemDocs, handle_bytestream, hc, hw]

lemma itemDocs_of_norm (cfg : Config) (env : Env) (source : Source)
    (h : normSucceeds env source) :
    itemDocs cfg env source = convertAndExport cfg env (normInput source) := by
  cases source with
  | path p => rfl
  | stream bytestream =>
      obtain ⟨hc, hw⟩ := h
      simp [itemDocs, normInput, hc, hw]

lemma allRecords_nil (cfg : Config) (env : Env) : allRecords cfg env [] = [] := rfl

lemma allRecords_cons (cfg : Config) (env : Env) (s : Source) (rest : List Source) :
    allRecords cfg env (s :: rest) =
      recordsOf (itemDocs cfg env s) ++ allRecords cfg env rest := by
  simp [allRecords]

lemma allRecords_append (cfg : Config) (env : Env) (xs ys : List Source) :
    allRecords cfg env (xs ++ ys) = allRecords cfg env xs ++ allRecords cfg env ys := by
  simp [allRecords]

lemma itemWarnings_append (cfg : Config) (env : Env) (xs ys : List Source) :
    itemWarnings cfg env (xs ++ ys) =
      itemWarnings cfg env xs ++ itemWarnings cfg env ys := by
  simp [itemWarnings]

lemma runLoop_documents (cfg : Config) (env : Env) (srcs : List Source) :
    ∀ (fs : FSState) (docs : List Document) (temps : List String)
      (logs : List LogEntry),
      (runLoop cfg env srcs fs docs temps logs).1 = docs ++ allRecords cfg env srcs := by
  induction srcs with
  | nil => intro fs docs temps logs; simp [runLoop, allRecords_nil]
  | cons s rest ih =>
      intro fs docs temps logs
      have hfst := runItem_fst cfg env s fs
      rcases hri : runItem cfg env s fs with ⟨res, fs', newTemps⟩
      rw [hri] at hfst
      cases res with
      | ok hs_docs =>
          simp only [runLoop, hri, ih, allRecords_cons, ← hfst, recordsOf,
            List.append_assoc]
      | error e =>
          simp only [runLoop, hri, ih, allRecords_cons, ← hfst, recordsOf,
            List.nil_append, List.append_nil]

lemma runLoop_logs (cfg : Config) (env : Env) (srcs : List Source) :
    ∀ (fs : FSState) (docs : List Document) (temps : List String)
      (logs : List LogEntry),
      (runLoop cfg env srcs fs docs temps logs).2.2.2 =
        logs ++ itemWarnings cfg env srcs := by
  induction srcs with
  | nil => intro fs docs temps logs; simp [runLoop, itemWarnings]
  | cons s rest ih =>
      intro fs docs temps logs
      have hfst := runItem_fst cfg env s fs
      rcases hri : runItem cfg env s fs with ⟨res, fs', newTemps⟩
      rw [hri] at hfst
      cases res with
      | ok hs_docs =>
          simp only [runLoop, hri, ih]
          simp [itemWarnings, ← hfst]
      | error e =>
          simp only [runLoop, hri, ih]
          simp [itemWarnings, ← hfst]

lemma runLoop_temps_mono (cfg : Config) (env : Env) (srcs : List Source) :
    ∀ (fs : FSState) (docs : List Document) (temps : List String)
      (logs : List LogEntry),
      ∃ t, (runLoop cfg env srcs fs docs temps logs).2.1 = temps ++ t := by
  induction srcs with
  | nil => intro fs docs temps logs; exact ⟨[], by simp [runLoop]⟩
  | cons s rest ih =>
      intro fs docs temps logs
      rcases hri : runItem cfg env s fs with ⟨res, fs', newTemps⟩
      cases res with
      | ok hs_docs =>
          obtain ⟨t, ht⟩ := ih fs' (docs ++ hs_docs) (temps ++ newTemps) logs
          exact ⟨newTemps ++ t, by simp only [runLoop, hri, ht, List.append_assoc]⟩
      | error e =>
          obtain ⟨t, ht⟩ := ih fs' docs (temps ++ newTemps)
            (logs ++ [LogEntry.warning s e])
          exact ⟨newTemps ++ t, by simp only [runLoop, hri, ht, List.append_assoc]⟩

lemma cleanup_files_subset (env : Env) (temps : List String) :
    ∀ (fs : FSState) (logs : List LogEntry) (name : String),
      name ∈ ((cleanup env temps fs logs).1.files.map Prod.fst) →
        name ∈ (fs.files.map Prod.fst) := by
  induction temps with
  | nil => intro fs logs name h; exact h
  | cons t rest ih =>
      intro fs logs name h
      by_cases ht : env.unlink_fails t
      · simpa [cleanup, ht] using ih _ _ name (by simpa [cleanup, ht] using h)
      · have h' := ih _ _ name (by simpa [cleanup, ht] using h)
        simp only [List.mem_map] at h' ⊢
        obtain ⟨f, hf, hfn⟩ := h'
        exact ⟨f, (List.mem_filter.mp hf).1, hfn⟩

lemma cleanup_deletes (env : Env) (temps : List String) :
    ∀ (fs : FSState) (logs : List LogEntry) (name : String),
      name ∈ temps → env.unlink_fails name = false →
        name ∉ ((cleanup env temps fs logs).1.files.map Prod.fst) := by
  induction temps with
  | nil => intro fs logs name h _; exact absurd h (List.not_mem_nil name)
  | cons t rest ih =>
      intro fs logs name hmem hfail
      rcases List.mem_cons.mp hmem with heq | hrest
      · subst heq
        intro habs
        have h' := cleanup_files_subset env rest _ _ name
          (by simpa [cleanup, hfail] using habs)
        simp only [List.mem_map] at h'
        obtain ⟨f, hf, hfn⟩ := h'
        have := (List.mem_filter.mp hf).2
        simp [hfn] at this
      · by_cases ht : env.unlink_fails t
        · intro habs
          exact ih _ _ name hrest hfail (by simpa [cleanup, ht] using habs)
        · intro habs
          exact ih _ _ name hrest hfail (by simpa [cleanup, ht] using habs)

lemma cleanup_logs_mono (env : Env) (temps : List String) :
    ∀ (fs : FSState) (logs : List LogEntry) (entry : LogEntry),
      entry ∈ logs → entry ∈ (cleanup env temps fs logs).2 := by
  induction temps with
  | nil => intro fs logs entry h; exact h
  | cons t rest ih =>
      intro fs logs entry h
      by_cases ht : env.unlink_fails t
      · have : entry ∈ logs ++ [LogEntry.debug t] := List.mem_append_left _ h
        simpa [cleanup, ht] using ih _ _ entry this
      · simpa [cleanup, ht] using ih _ _ entry h

lemma cleanup_debug_of_fail (env : Env) (temps : List String) :
    ∀ (fs : FSState) (logs : List LogEntry) (name : String),
      name ∈ temps → env.unlink_fails name = true →
        LogEntry.debug name ∈ (cleanup env temps fs logs).2 := by
  induction temps with
  | nil => intro fs logs name h _; exact absurd h (List.not_mem_nil name)
  | cons t rest ih =>
      intro fs logs name hmem hfail
      rcases List.mem_cons.mp hmem with heq | hrest
      · subst heq
        have : LogEntry.debug name ∈ logs ++ [LogEntry.debug name] := by simp
        simpa [cleanup, hfail] using cleanup_logs_mono env rest _ _ _ this
      · by_cases ht : env.unlink_fails t
        · simpa [cleanup, ht] using ih _ _ name hrest hfail
        · simpa [cleanup, ht] using ih _ _ name hrest hfail

lemma chunkRecord_ok (env : Env) (chunk : BaseChunk) (d : Document)
    (h : chunkRecord env chunk = Except.ok d) :
    env.serialize chunk = Except.ok d.content ∧
      env.extract_chunk_meta chunk = Except.ok d.meta := by
  unfold chunkRecord at h
  rcases hs : env.serialize chunk with e | content <;> rw [hs] at h
  · exact Except.noConfusion h
  · rcases hm : env.extract_chunk_meta chunk with e | meta <;> rw [hm] at h
    · exact Except.noConfusion h
    · have h2 : Except.ok (Document.mk content meta) = Except.ok d := h
      injection h2 with h3
      subst h3
      exact ⟨rfl, rfl⟩

lemma chunkRecords_ok (env : Env) (chunks : List BaseChunk) :
    ∀ (l : List Document), chunkRecords env chunks = Except.ok l →
      l.length = chunks.length ∧
        ∀ i (h1 : i < chunks.length) (h2 : i < l.length),
          env.serialize (chunks.get ⟨i, h1⟩) = Except.ok ((l.get ⟨i, h2⟩).content) ∧
            env.extract_chunk_meta (chunks.get ⟨i, h1⟩) =
              Except.ok ((l.get ⟨i, h2⟩).meta) := by
  induction chunks with
  | nil =>
      intro l h
      simp only [chunkRecords, Except.ok.injEq] at h
      subst h
      exact ⟨rfl, by intro i h1 _; exact absurd h1 (Nat.not_lt_zero i)⟩
  | cons chunk rest ih =>
      intro l h
      unfold chunkRecords at h
      rcases hc : chunkRecord env chunk with e | d <;> rw [hc] at h
      · exact Except.noConfusion h
      · rcases hr : chunkRecords env rest with e | ds <;> rw [hr] at h
        · exact Except.noConfusion h
        · have h2 : Except.ok (d :: ds) = Except.ok l := h
          injection h2 with h3
          subst h3
          obtain ⟨hlen, hget⟩ := ih ds hr
          refine ⟨by simp [hlen], ?_⟩
          intro i h1 h2
          cases i with
          | zero => exact chunkRecord_ok env chunk d hc
          | succ j =>
              exact hget j (Nat.lt_of_succ_lt_succ h1) (Nat.lt_of_succ_lt_succ h2)

lemma run_documents (cfg : Config) (env : Env) (srcs : List Source) (fs : FSState) :
    (run cfg env srcs fs).documents = allRecords cfg env srcs := by
  unfold run
  rcases h : runLoop cfg env srcs fs [] [] [] with ⟨docs, temps, fs', logs⟩
  rcases h2 : cleanup env temps fs' logs with ⟨fs'', logs'⟩
  simp only [h, h2]
  have hd := runLoop_documents cfg env srcs fs [] [] []
  rw [h] at hd
  simpa using hd

lemma run_warning_mem (cfg : Config) (env : Env) (srcs : List Source) (fs : FSState)
    (entry : LogEntry) (h : entry ∈ itemWarnings cfg env srcs) :
    entry ∈ (run cfg env srcs fs).logs := by
  unfold run
  rcases hl : runLoop cfg env srcs fs [] [] [] with ⟨docs, temps, fs', logs⟩
  rcases h2 : cleanup env temps fs' logs with ⟨fs'', logs'⟩
  simp only [hl, h2]
  have hlog := runLoop_logs cfg env srcs fs [] [] []
  rw [hl] at hlog
  simp only [List.nil_append] at hlog
  have := cleanup_logs_mono env temps fs' logs entry (by rw [hlog]; exact h)
  rw [h2] at this
  exact this

lemma run_temp_deleted (cfg : Config) (env : Env) (srcs : List Source) (fs : FSState)
    (name : String) (hmem : name ∈ (run cfg env srcs fs).temp_files)
    (hfail : env.unlink_fails name = false) :
    name ∉ ((run cfg env srcs fs).fs.files.map Prod.fst) := by
  revert hmem
  unfold run
  rcases hl : runLoop cfg env srcs fs [] [] [] with ⟨docs, temps, fs', logs⟩
  rcases h2 : cleanup env temps fs' logs with ⟨fs'', logs'⟩
  simp only [hl, h2]
  intro hmem
  have := cleanup_deletes env temps fs' logs name hmem hfail
  rw [h2] at this
  exact this

lemma run_temp_fail_logged (cfg : Config) (env : Env) (srcs : List Source)
    (fs : FSState) (name : String) (hmem : name ∈ (run cfg env srcs fs).temp_files)
    (hfail : env.unlink_fails name = true) :
    LogEntry.debug name ∈ (run cfg env srcs fs).logs := by
  revert hmem
  unfold run
  rcases hl : runLoop cfg env srcs fs [] [] [] with ⟨docs, temps, fs', logs⟩
  rcases h2 : cleanup env temps fs' logs with ⟨fs'', logs'⟩
  simp only [hl, h2]
  intro hmem
  have := cleanup_debug_of_fail env temps fs' logs name hmem hfail
  rw [h2] at this
  exact this

lemma run_stream_head_temp (cfg : Config) (env : Env) (bytestream : ByteStream)
    (rest : List Source) (fs : FSState)
    (hc : env.temp_create_fails bytestream = false)
    (hw : env.temp_write_fails bytestream = false) :
    tempName fs.counter (suffixFor bytestream) ∈
      (run cfg env (Source.stream bytestream :: rest) fs).temp_files := by
  unfold run
  have hitem : runItem cfg env (Source.stream bytestream) fs =
      (convertAndExport cfg env
        (ConvInput.tempFile bytestream.data (suffixFor bytestream)),
        { counter := fs.counter + 1,
          files := (tempName fs.counter (suffixFor bytestream), bytestream.data)
            :: fs.files },
        [tempName fs.counter (suffixFor bytestream)]) := by
    simp [runItem, handle_bytestream, hc, hw]
  rcases hce : convertAndExport cfg env
      (ConvInput.tempFile bytestream.data (suffixFor bytestream)) with e | l <;>
    rw [hce] at hitem
  · have hstep : runLoop cfg env (Source.stream bytestream :: rest) fs [] [] [] =
        runLoop cfg env rest
          { counter := fs.counter + 1,
            files := (tempName fs.counter (suffixFor bytestream), bytestream.data)
              :: fs.files }
          [] ([] ++ [tempName fs.counter (suffixFor bytestream)])
          ([] ++ [LogEntry.warning (Source.stream bytestream) e]) := by
      simp only [runLoop, hitem]
    rw [hstep]
    obtain ⟨t, ht⟩ := runLoop_temps_mono cfg env rest
      { counter := fs.counter + 1,
        files := (tempName fs.counter (suffixFor bytestream), bytestream.data)
          :: fs.files }
      [] ([] ++ [tempName fs.counter (suffixFor bytestream)])
      ([] ++ [LogEntry.warning (Source.stream bytestream) e])
    rcases hl : runLoop cfg env rest
        { counter := fs.counter + 1,
          files := (tempName fs.counter (suffixFor bytestream), bytestream.data)
            :: fs.files }
        [] ([] ++ [tempName fs.counter (suffixFor bytestream)])
        ([] ++ [LogEntry.warning (Source.stream bytestream) e])
      with ⟨docs, temps, fs', logs⟩
    rw [hl] at ht
    rcases h2 : cleanup env temps fs' logs with ⟨fs'', logs'⟩
    simp only [h2]
    simp only [List.nil_append] at ht ⊢
    simp [ht]
  · have hstep : runLoop cfg env (Source.stream bytestream :: rest) fs [] [] [] =
        runLoop cfg env rest
          { counter := fs.counter + 1,
            files := (tempName fs.counter (suffixFor bytestream), bytestream.data)
              :: fs.files }
          ([] ++ l) ([] ++ [tempName fs.counter (suffixFor bytestream)]) [] := by
      simp only [runLoop, hitem]
    rw [hstep]
    obtain ⟨t, ht⟩ := runLoop_temps_mono cfg env rest
      { counter := fs.counter + 1,
        files := (tempName fs.counter (suffixFor bytestream), bytestream.data)
          :: fs.files }
      ([] ++ l) ([] ++ [tempName fs.counter (suffixFor bytestream)]) []
    rcases hl : runLoop cfg env rest
        { counter := fs.counter + 1,
          files := (tempName fs.counter (suffixFor bytestream), bytestream.data)
            :: fs.files }
        ([] ++ l) ([] ++ [tempName fs.counter (suffixFor bytestream)]) []
      with ⟨docs, temps, fs', logs⟩
    rw [hl] at ht
    rcases h2 : cleanup env temps fs' logs with ⟨fs'', logs'⟩
    simp only [h2]
    simp only [List.nil_append] at ht ⊢
    simp [ht]

lemma itemDocs_chunks_mode (cfg : Config) (env : Env) (s : Source)
    (hmode : cfg.export_type = ExportType.doc_chunks) (hn : normSucceeds env s)
    (dl_doc : DoclingDocument) (chunks : List BaseChunk)
    (hconv : env.convert (normInput s) cfg.convert_kwargs = Except.ok dl_doc)
    (hchunk : env.chunk dl_doc = Except.ok chunks) :
    itemDocs cfg env s = chunkRecords env chunks := by
  rw [itemDocs_of_norm cfg env s hn]
  unfold convertAndExport
  rw [hconv, except_bind_ok]
  simp only [hmode]
  rw [hchunk, except_bind_ok]

lemma itemDocs_markdown_mode (cfg : Config) (env : Env) (s : Source)
    (hmode : cfg.export_type = ExportType.markdown) (hn : normSucceeds env s)
    (dl_doc : DoclingDocument) (md : String) (m : List (String × JsonVal))
    (hconv : env.convert (normInput s) cfg.convert_kwargs = Except.ok dl_doc)
    (hexp : env.export_to_markdown dl_doc cfg.md_export_kwargs = Except.ok md)
    (hmeta : env.extract_dl_doc_meta dl_doc = Except.ok m) :
    itemDocs cfg env s = Except.ok [{ content := md, meta := m }] := by
  rw [itemDocs_of_norm cfg env s hn]
  unfold convertAndExport
  rw [hconv, except_bind_ok]
  simp only [hmode]
  rw [hexp, except_bind_ok, hmeta]
  rfl

/-! ### Claim theorems -/

/-- Claim C1 (code bug): the claim states that an export mode other than
chunked or markdown makes `run` fail immediately by raising, uncaught by
per-item isolation, never returning a partial list.  The code contradicts
this: the `raise RuntimeError(f"Unexpected export type: ...")` on line 171
sits inside the per-item `try`, so the `except Exception` on line 174
catches it, logs the per-item warning, and continues.  Concretely, with the
foreign export-type value `"bogus"` and two inputs, `run` attempts BOTH
items (two warnings carrying the RuntimeError message) and returns normally
with an empty documents list. -/
theorem run_swallows_unexpected_export_type :
    run cfgBogus envOk [Source.path "a", Source.path "b"] { counter := 0, files := [] } =
      { documents := [], temp_files := [], fs := { counter := 0, files := [] },
        logs := [LogEntry.warning (Source.path "a") "Unexpected export type: bogus",
          LogEntry.warning (Source.path "b") "Unexpected export type: bogus"] } := rfl

/-- Claim C2: a per-item error (normalization, conversion, chunking/export,
or metadata extraction — any cause of an `itemDocs` error) is caught and
logged with the offending source and error; the item contributes zero
records, and the remaining items produce exactly the records they would
produce without it. -/
theorem run_isolates_failing_item (cfg : Config) (env : Env) (xs ys : List Source)
    (bad : Source) (e : String) (fs : FSState)
    (h : itemDocs cfg env bad = Except.error e) :
    (run cfg env (xs ++ bad :: ys) fs).documents =
      (run cfg env (xs ++ ys) fs).documents ∧
    LogEntry.warning bad e ∈ (run cfg env (xs ++ bad :: ys) fs).logs := by
  constructor
  · rw [run_documents, run_documents]
    have hx : xs ++ bad :: ys = xs ++ [bad] ++ ys := by simp
    rw [hx, allRecords_append, allRecords_append, allRecords_append]
    simp [allRecords_cons, allRecords_nil, h, recordsOf]
  · apply run_warning_mem
    have hx : xs ++ bad :: ys = xs ++ [bad] ++ ys := by simp
    rw [hx, itemWarnings_append, itemWarnings_append]
    have hone : itemWarnings cfg env [bad] = [LogEntry.warning bad e] := by
      simp [itemWarnings, h]
    simp [hone]

/-- Witness for C2: with conversion failing exactly on `"bad.pdf"`, the
batch `["a", "bad.pdf", "b"]` yields the same documents as `["a", "b"]`,
and the warning for `"bad.pdf"` is in the logs. -/
theorem run_isolates_failing_item_witness :
    (run cfgMd envOneBad
        ([Source.path "a"] ++ Source.path "bad.pdf" :: [Source.path "b"])
        { counter := 0, files := [] }).documents =
      (run cfgMd envOneBad ([Source.path "a"] ++ [Source.path "b"])
        { counter := 0, files := [] }).documents ∧
    LogEntry.warning (Source.path "bad.pdf") "conversion failed" ∈
      (run cfgMd envOneBad
        ([Source.path "a"] ++ Source.path "bad.pdf" :: [Source.path "b"])
        { counter := 0, files := [] }).logs :=
  run_isolates_failing_item cfgMd envOneBad [Source.path "a"] [Source.path "b"]
    (Source.path "bad.pdf") "conversion failed" { counter := 0, files := [] } rfl

/-- Claim C3: in chunked export mode the returned documents are the
concatenation, in input order, of the per-item record lists; a fully
normalised, converted and chunked item's records are exactly the
comprehension over its chunks; and whenever that comprehension succeeds it
yields one record per chunk, in chunk order, whose content is the chunker's
serialization of the chunk and whose metadata is the extractor's
chunk-extraction result. -/
theorem run_chunk_mode_output (cfg : Config) (env : Env) (srcs : List Source)
    (fs : FSState) (hmode : cfg.export_type = ExportType.doc_chunks) :
    (run cfg env srcs fs).documents = allRecords cfg env srcs ∧
    (∀ s, normSucceeds env s →
      ∀ dl_doc chunks,
        env.convert (normInput s) cfg.convert_kwargs = Except.ok dl_doc →
        env.chunk dl_doc = Except.ok chunks →
        itemDocs cfg env s = chunkRecords env chunks) ∧
    (∀ chunks l, chunkRecords env chunks = Except.ok l →
      l.length = chunks.length ∧
      ∀ i (h1 : i < chunks.length) (h2 : i < l.length),
        env.serialize (chunks.get ⟨i, h1⟩) = Except.ok ((l.get ⟨i, h2⟩).content) ∧
        env.extract_chunk_meta (chunks.get ⟨i, h1⟩) =
          Except.ok ((l.get ⟨i, h2⟩).meta)) := by
  refine ⟨run_documents cfg env srcs fs, ?_, ?_⟩
  · intro s hn dl_doc chunks hconv hchunk
    exact itemDocs_chunks_mode cfg env s hmode hn dl_doc chunks hconv hchunk
  · intro chunks l hl
    exact chunkRecords_ok env chunks l hl

/-- Witness for C3 at a concrete chunk-mode run. -/
theorem run_chunk_mode_output_witness :
    (run cfgChunks envOk [Source.path "a"] { counter := 0, files := [] }).documents =
      allRecords cfgChunks envOk [Source.path "a"] ∧
    itemDocs cfgChunks envOk (Source.path "a") =
      chunkRecords envOk [{ export_json_dict := JsonVal.str "chunk0" }] :=
  ⟨(run_chunk_mode_output cfgChunks envOk [Source.path "a"]
      { counter := 0, files := [] } rfl).1,
   (run_chunk_mode_output cfgChunks envOk [Source.path "a"]
      { counter := 0, files := [] } rfl).2.1
     (Source.path "a") True.intro { origin := none }
     [{ export_json_dict := JsonVal.str "chunk0" }] rfl rfl⟩

/-- Claim C4: in whole-document markdown mode the returned documents are
the concatenation, in input order, of the per-item record lists, and an
item whose normalization, conversion, markdown export and metadata
extraction all succeed contributes exactly one record, whose content is the
document's markdown export under the configured export parameters and whose
metadata is the extractor's document-extraction result. -/
theorem run_markdown_mode_output (cfg : Config) (env : Env) (srcs : List Source)
    (fs : FSState) (hmode : cfg.export_type = ExportType.markdown) :
    (run cfg env srcs fs).documents = allRecords cfg env srcs ∧
    (∀ s, normSucceeds env s →
      ∀ dl_doc md m,
        env.convert (normInput s) cfg.convert_kwargs = Except.ok dl_doc →
        env.export_to_markdown dl_doc cfg.md_export_kwargs = Except.ok md →
        env.extract_dl_doc_meta dl_doc = Except.ok m →
        itemDocs cfg env s = Except.ok [{ content := md, meta := m }]) := by
  refine ⟨run_documents cfg env srcs fs, ?_⟩
  intro s hn dl_doc md m hconv hexp hmeta
  exact itemDocs_markdown_mode cfg env s hmode hn dl_doc md m hconv hexp hmeta

/-- Witness for C4 at a concrete markdown-mode run. -/
theorem run_markdown_mode_output_witness :
    (run cfgMd envOk [Source.path "a"] { counter := 0, files := [] }).documents =
      allRecords cfgMd envOk [Source.path "a"] ∧
    itemDocs cfgMd envOk (Source.path "a") =
      Except.ok [{ content := "# markdown", meta := [] }] :=
  ⟨(run_markdown_mode_output cfgMd envOk [Source.path "a"]
      { counter := 0, files := [] } rfl).1,
   (run_markdown_mode_output cfgMd envOk [Source.path "a"]
      { counter := 0, files := [] } rfl).2
     (Source.path "a") True.intro { origin := none } "# markdown" [] rfl rfl rfl⟩

/-- Counterexample for C5: the claim quantifies over every temporary file
created during the run, but a file created by `NamedTemporaryFile` whose
subsequent `temp_file.write` raises is never returned, hence never recorded
in `temp_files`, hence never deleted.  Concretely: starting from an empty
filesystem, one byte-stream input whose write fails leaves `/tmp/tmp0` on
the filesystem after `run` returns, records no temp file, and logs only the
per-item warning (no deletion-failure debug entry): the created file
survives the run undeleted. -/
theorem run_leaks_unrecorded_temp_file :
    (run cfgMd envLeak [Source.stream bsPlain]
        { counter := 0, files := [] }).fs.files = [("/tmp/tmp0", [])] ∧
    (run cfgMd envLeak [Source.stream bsPlain]
        { counter := 0, files := [] }).temp_files = [] ∧
    (run cfgMd envLeak [Source.stream bsPlain]
        { counter := 0, files := [] }).logs =
      [LogEntry.warning (Source.stream bsPlain) "temp file write failed"] :=
  ⟨rfl, rfl, rfl⟩

/-- Claim C5 as amended: every temporary file RECORDED for cleanup (i.e.
whose normalization returned its path) is deleted after all items are
processed, on every exit path of `run`; a deletion failure is logged at
debug severity and suppressed — `run` still returns its result. -/
theorem run_deletes_recorded_temp_files (cfg : Config) (env : Env)
    (srcs : List Source) (fs : FSState) (name : String)
    (hmem : name ∈ (run cfg env srcs fs).temp_files) :
    (env.unlink_fails name = false →
      name ∉ ((run cfg env srcs fs).fs.files.map Prod.fst)) ∧
    (env.unlink_fails name = true →
      LogEntry.debug name ∈ (run cfg env srcs fs).logs) :=
  ⟨fun h => run_temp_deleted cfg env srcs fs name hmem h,
   fun h => run_temp_fail_logged cfg env srcs fs name hmem h⟩

/-- Witness for the amended C5: the recorded temp file of a successful
byte-stream run is gone from the filesystem afterwards. -/
theorem run_deletes_recorded_temp_files_witness :
    "/tmp/tmp0" ∉
      ((run cfgMd envOk [Source.stream bsPlain]
        { counter := 0, files := [] }).fs.files.map Prod.fst) :=
  (run_deletes_recorded_temp_files cfgMd envOk [Source.stream bsPlain]
    { counter := 0, files := [] } "/tmp/tmp0" (by decide)).1 rfl

/-- Claim C6: normalization of a byte-buffer input writes the buffer's
bytes to a newly created temporary file and flags it temporary; a nonempty
file-extension hint `e` makes the suffix the dot-prefixed `"." ++ e` (so
the name ends with it), an absent hint applies no suffix; the file's path
is recorded in `temp_files`, and every recorded temp file whose unlink
succeeds is gone after the run completes. -/
theorem bytestream_temp_file_spec :
    (∀ (env : Env) (bytestream : ByteStream) (fs : FSState),
      env.temp_create_fails bytestream = false →
      env.temp_write_fails bytestream = false →
      handle_bytestream env bytestream fs =
        (Except.ok (tempName fs.counter (suffixFor bytestream), true),
          { counter := fs.counter + 1,
            files := (tempName fs.counter (suffixFor bytestream), bytestream.data)
              :: fs.files })) ∧
    (∀ (bytestream : ByteStream) (e : String),
      dictGet bytestream.meta "file_extension" = some e → e ≠ "" →
      suffixFor bytestream = some ("." ++ e) ∧
      ∀ n, tempName n (suffixFor bytestream) = ("/tmp/tmp" ++ toString n) ++ ("." ++ e)) ∧
    (∀ bytestream : ByteStream,
      dictGet bytestream.meta "file_extension" = none → suffixFor bytestream = none) ∧
    (∀ (cfg : Config) (env : Env) (bytestream : ByteStream) (rest : List Source)
      (fs : FSState),
      env.temp_create_fails bytestream = false →
      env.temp_write_fails bytestream = false →
      tempName fs.counter (suffixFor bytestream) ∈
        (run cfg env (Source.stream bytestream :: rest) fs).temp_files) ∧
    (∀ (cfg : Config) (env : Env) (srcs : List Source) (fs : FSState) (name : String),
      name ∈ (run cfg env srcs fs).temp_files → env.unlink_fails name = false →
      name ∉ ((run cfg env srcs fs).fs.files.map Prod.fst)) := by
  refine ⟨?_, ?_, ?_, ?_, ?_⟩
  · intro env bytestream fs hc hw
    simp [handle_bytestream, hc, hw]
  · intro bytestream e he hne
    have hs : suffixFor bytestream = some ("." ++ e) := by
      simp [suffixFor, he, hne]
    exact ⟨hs, fun n => by rw [hs]; rfl⟩
  · intro bytestream he
    simp [suffixFor, he]
  · intro cfg env bytestream rest fs hc hw
    exact run_stream_head_temp cfg env bytestream rest fs hc hw
  · intro cfg env srcs fs name hmem hfail
    exact run_temp_deleted cfg env srcs fs name hmem hfail

/-- Witness for C6 at a byte stream hinting the `md` extension. -/
theorem bytestream_temp_file_spec_witness :
    handle_bytestream envOk bsMd { counter := 0, files := [] } =
      (Except.ok (tempName 0 (suffixFor bsMd), true),
        { counter := 1, files := [(tempName 0 (suffixFor bsMd), bsMd.data)] }) ∧
    suffixFor bsMd = some ".md" ∧
    tempName 0 (suffixFor bsMd) = "/tmp/tmp0.md" ∧
    tempName 0 (suffixFor bsMd) ∈
      (run cfgMd envOk (Source.stream bsMd :: []) { counter := 0, files := [] }).temp_files ∧
    tempName 0 (suffixFor bsMd) ∉
      ((run cfgMd envOk (Source.stream bsMd :: [])
        { counter := 0, files := [] }).fs.files.map Prod.fst) := by
  have hmem := bytestream_temp_file_spec.2.2.2.1 cfgMd envOk bsMd []
    { counter := 0, files := [] } rfl rfl
  refine ⟨bytestream_temp_file_spec.1 envOk bsMd { counter := 0, files := [] } rfl rfl,
    (bytestream_temp_file_spec.2.1 bsMd "md" rfl (by decide)).1,
    (bytestream_temp_file_spec.2.1 bsMd "md" rfl (by decide)).2 0,
    hmem,
    bytestream_temp_file_spec.2.2.2.2 cfgMd envOk (Source.stream bsMd :: [])
      { counter := 0, files := [] } (tempName 0 (suffixFor bsMd)) hmem rfl⟩

/-- Claim C7: serializing a component and reconstructing from the
serialization reproduces the conversion parameters and markdown export
parameters exactly; the collaborator instances (engine, chunker, meta
extractor) are not captured — the reconstructed component holds the system
defaults. -/
theorem dict_round_trip (c : DoclingConverter) :
    (DoclingConverter.from_dict (DoclingConverter.to_dict c)).convert_kwargs =
      c.convert_kwargs ∧
    (DoclingConverter.from_dict (DoclingConverter.to_dict c)).md_export_kwargs =
      c.md_export_kwargs ∧
    (DoclingConverter.from_dict (DoclingConverter.to_dict c)).converter =
      CollabSlot.default ∧
    (DoclingConverter.from_dict (DoclingConverter.to_dict c)).chunker =
      some CollabSlot.default ∧
    (DoclingConverter.from_dict (DoclingConverter.to_dict c)).meta_extractor =
      CollabSlot.default := by
  refine ⟨rfl, rfl, rfl, ?_, rfl⟩
  simp [DoclingConverter.from_dict, DoclingConverter.init]

/-- Claim C8: the default extractor returns, for a chunk, a mapping with
the single key `dl_meta` holding the chunk's native structured export; for
a whole document it returns a mapping with that single key holding only the
origin sub-structure when one is recorded, and the empty mapping when the
document has no origin. -/
theorem default_meta_extractor_spec :
    (∀ chunk : BaseChunk,
      (MetaExtractor.extract_chunk_meta chunk).map Prod.fst = ["dl_meta"] ∧
      metaLookup (MetaExtractor.extract_chunk_meta chunk) "dl_meta" =
        some chunk.export_json_dict) ∧
    (∀ origin_dump : JsonVal,
      (MetaExtractor.extract_dl_doc_meta { origin := some origin_dump }).map Prod.fst =
        ["dl_meta"] ∧
      metaLookup (MetaExtractor.extract_dl_doc_meta { origin := some origin_dump })
          "dl_meta" =
        some (JsonVal.obj [("origin", origin_dump)])) ∧
    MetaExtractor.extract_dl_doc_meta { origin := none } = [] :=
  ⟨fun _ => ⟨rfl, rfl⟩, fun _ => ⟨rfl, rfl⟩, rfl⟩

/-- Claim C9: on the empty input list `run` returns `documents = []`,
records no temp file, leaves the filesystem untouched (no creation, no
deletion) and emits no log entry — and this holds for every environment,
so no collaborator is consulted. -/
theorem run_empty_input (cfg : Config) (env : Env) (fs : FSState) :
    run cfg env [] fs =
      { documents := [], temp_files := [], fs := fs, logs := [] } := rfl

/-- Claim C10: a `file_extension` hint mapped to the empty string is falsy
in the `if bytestream.meta.get("file_extension")` guard, so no suffix is
applied — the temporary file's name is exactly the name an absent hint
produces. -/
theorem empty_extension_hint_no_suffix (bytestream : ByteStream)
    (h : dictGet bytestream.meta "file_extension" = some "") :
    suffixFor bytestream = none ∧
    ∀ n, tempName n (suffixFor bytestream) = tempName n none := by
  have hs : suffixFor bytestream = none := by simp [suffixFor, h]
  exact ⟨hs, fun n => by rw [hs]⟩

/-- Witness for C10 at a concrete byte stream carrying the empty hint. -/
theorem empty_extension_hint_no_suffix_witness :
    suffixFor bsEmptyExt = none ∧
    tempName 0 (suffixFor bsEmptyExt) = tempName 0 none :=
  ⟨(empty_extension_hint_no_suffix bsEmptyExt rfl).1,
   (empty_extension_hint_no_suffix bsEmptyExt rfl).2 0⟩

end DoclingHaystack
